import Mathlib

/-!
Verification development for the `ingest` media-ingestion engine.

The Rust sources are shallowly embedded: paths become lists of normal
components with an absolute-flag, the `std::path::Path` operations used by
the engine (`file_stem`, `extension`, `file_name`, `parent`, `join`,
`strip_prefix`, `with_extension`) are reproduced on that representation,
and every filesystem effect (metadata, copy, canonicalize, directory
creation, free-space query, directory traversal) is an oracle supplied in
an `Env` record.  The `Ingestor`'s mutable state is threaded explicitly,
and each effectful operation additionally returns the list of filesystem
actions it performed, so that "which files were copied" is observable.

The crate ships two feature-gated personalities (`src/ingest/sync.rs` and
`src/ingest/async.rs`) plus an older in-`lib.rs` copy of the synchronous
code; functions below carry an `A` suffix for the async personality and an
`S` suffix for the synchronous one where the two differ.
-/

namespace Ingest

/-- ASCII lowercasing of one character, as `u8::to_ascii_lowercase` does
(only `A`-`Z` are mapped; other characters are untouched). -/
def lowerChar (c : Char) : Char :=
  if 'A' ≤ c ∧ c ≤ 'Z' then Char.ofNat (c.toNat + 32) else c

/-- ASCII lowercasing of a string, modelling `OsStr::to_ascii_lowercase`
followed by the always-successful `into_string` on our unicode strings. -/
def asciiLower (s : String) : String :=
  String.mk (s.toList.map lowerChar)

/-- Index of the last '.' in a list of characters, if any. -/
def lastDotIdx (cs : List Char) : Option Nat :=
  ((List.range cs.length).filter (fun i => cs.getD i ' ' = '.')).getLast?

/-- Splits a file NAME (one path component) into `(stem, extension)` the way
`std::path::Path` does: split at the last '.', except that a '.' at
position 0 (a leading-dot name with no other dot) yields no extension. -/
def stemExtOfName (s : String) : String × Option String :=
  let cs := s.toList
  match lastDotIdx cs with
  | none => (s, none)
  | some 0 => (s, none)
  | some i => (String.mk (cs.take i), some (String.mk (cs.drop (i + 1))))

/-- A filesystem path: an absolute-flag plus the list of normal components.
`⟨false, []⟩` is the empty path, `⟨true, []⟩` is the filesystem root. -/
structure RPath where
  absolute : Bool
  components : List String
deriving DecidableEq, Repr

namespace RPath

/-- Models `Path::parent`: drops the last component; `None` for the empty
path and for the root. -/
def parent (p : RPath) : Option RPath :=
  match p.components with
  | [] => none
  | _ => some ⟨p.absolute, p.components.dropLast⟩

/-- Models `Path::join`: an absolute right operand replaces the path. -/
def join (p q : RPath) : RPath :=
  if q.absolute then q else ⟨p.absolute, p.components ++ q.components⟩

/-- Models `Path::join` with a single file-name component. -/
def pushName (p : RPath) (s : String) : RPath :=
  ⟨p.absolute, p.components ++ [s]⟩

/-- Models `Path::strip_prefix` (`Ok` = `some`): the base's components must
be an initial segment of the path's, with matching absolute-flags; an empty
relative base strips nothing from any path. -/
def stripRoot (p base : RPath) : Option RPath :=
  if base.absolute = p.absolute then
    if base.components.isPrefixOf p.components then
      some ⟨false, p.components.drop base.components.length⟩
    else none
  else if base.absolute = false ∧ base.components = [] then
    some p
  else none

/-- Models `Path::file_name`: the last normal component. -/
def fileName (p : RPath) : Option String :=
  p.components.getLast?

/-- Models `Path::file_stem`. -/
def fileStem (p : RPath) : Option String :=
  (p.fileName).map (fun n => (stemExtOfName n).1)

/-- Models `Path::extension`. -/
def extension (p : RPath) : Option String :=
  (p.fileName).bind (fun n => (stemExtOfName n).2)

/-- Models `Path::with_extension`: replaces the extension of the file name;
a path without a file name is returned unchanged (as `set_extension` does). -/
def withExtension (p : RPath) (e : String) : RPath :=
  match p.components.getLast? with
  | none => p
  | some last =>
    let stem := (stemExtOfName last).1
    let name := if e = "" then stem else stem ++ "." ++ e
    ⟨p.absolute, p.components.dropLast ++ [name]⟩

/-- Models the unix branch of the `IsHidden` trait (src/traits.rs): the
file name starts with '.', and a path WITHOUT a file name counts as hidden
(`unwrap_or(true)`). -/
def isHidden (p : RPath) : Bool :=
  match p.fileName with
  | some n =>
    match n.toList with
    | c :: _ => c = '.'
    | [] => false
  | none => true

/-- Models the `IsJpeg` trait (src/traits.rs): lowercased extension is
`jpg` or `jpeg`; no extension means not a JPEG (`unwrap_or_default`). -/
def isJpeg (p : RPath) : Bool :=
  match (p.extension).map asciiLower with
  | some e => e = "jpg" || e = "jpeg"
  | none => false

end RPath

/-- The error kinds of src/errors.rs, with Rust panics (`todo!`, `unwrap`)
modelled as the distinguished outcome `panicked`. -/
inductive IErr where
  | ioError
  | stripPrefixError
  | insufficientSpace
  | customError (msg : String)
  | panicked
deriving DecidableEq, Repr

instance {ε α : Type} [DecidableEq ε] [DecidableEq α] :
    DecidableEq (Except ε α) := fun a b =>
  match a, b with
  | .error e, .error f =>
    if h : e = f then isTrue (by rw [h])
    else isFalse (by intro hh; injection hh; contradiction)
  | .error _, .ok _ => isFalse (fun hh => Except.noConfusion hh)
  | .ok _, .error _ => isFalse (fun hh => Except.noConfusion hh)
  | .ok a, .ok b =>
    if h : a = b then isTrue (by rw [h])
    else isFalse (by intro hh; injection hh; contradiction)

/-- `TRASH_EXT` from src/ingest/async.rs. -/
def TRASH_EXT : List String :=
  ["xmp", "dat", "bat", "exe", "bin", "fir", "dmg", "msi", "sh", "lut",
   "mo", "lua", "sym", "rbf", "txt", "rtf", "doc", "docx", "pdf", "ctg"]

/-- `TRASH_FILES` from src/ingest/async.rs. -/
def TRASH_FILES : List String := ["indexervolumeguid"]

/-- `TRASH_FOLDERS` from src/ingest/async.rs. -/
def TRASH_FOLDERS : List String := ["system volume information"]

/-- The `Filter` struct (src/lib.rs): the `Cow<[&str]>` extension table is a
list of strings, the size bounds are `u64` values modelled as `Nat`. -/
structure Filter where
  extensions : List String
  min_size : Nat
  max_size : Nat
  ignore_hidden : Bool
deriving DecidableEq, Repr

/-- The lowercased-file-stem junk test inside the async `Filter::matches`
(src/ingest/async.rs lines 18-33): a stem appearing in `TRASH_FILES` or
`TRASH_FOLDERS` is rejected; a missing stem skips the test. -/
def junkStem (p : RPath) : Bool :=
  match (p.fileStem).map asciiLower with
  | some n => TRASH_FILES.contains n || TRASH_FOLDERS.contains n
  | none => false

/-- `Filter::matches` of src/ingest/async.rs (lines 12-59).  `sizeOf` is the
`metadata()` oracle; `none` is a metadata error, propagated.  Note the
extensionless branch reproduces the source's operator precedence:
`is_empty() || (contains("") && min ≤ size && size ≤ max)`. -/
def matchesAsync (f : Filter) (sizeOf : RPath → Option Nat) (p : RPath) :
    Except IErr Bool :=
  if f.ignore_hidden && p.isHidden then .ok false
  else if junkStem p then .ok false
  else
    let ext := (p.extension).map asciiLower
    match sizeOf p with
    | none => .error .ioError
    | some size =>
      match ext with
      | some e =>
        if (f.extensions.contains e || f.extensions.isEmpty
              || f.extensions.contains "")
            && decide (f.min_size ≤ size) && decide (size ≤ f.max_size)
            && !(TRASH_EXT.contains e) then
          .ok true
        else .ok false
      | none =>
        if f.extensions.isEmpty
            || (f.extensions.contains ""
                && decide (f.min_size ≤ size) && decide (size ≤ f.max_size)) then
          .ok true
        else .ok false

/-- `Filter::matches` of src/ingest/sync.rs (lines 2-28), identical to the
copy in src/lib.rs (lines 124-148): note the first test rejects whenever
`is_hidden() == ignore_hidden`, and the extension branch consults only
`extensions.contains`. -/
def matchesSync (f : Filter) (sizeOf : RPath → Option Nat) (p : RPath) :
    Except IErr Bool :=
  if p.isHidden == f.ignore_hidden then .ok false
  else
    let ext := (p.extension).map asciiLower
    match sizeOf p with
    | none => .error .ioError
    | some size =>
      match ext with
      | some e =>
        if f.extensions.contains e
            && decide (f.min_size ≤ size) && decide (size ≤ f.max_size) then
          .ok true
        else .ok false
      | none =>
        if (f.extensions.isEmpty || f.extensions.contains "")
            && decide (f.min_size ≤ size) && decide (size ≤ f.max_size) then
          .ok true
        else .ok false

/-- The `Position` enum: `pre` models the source's `Prefix` variant (the
default) and `suf` models `Suffix`; the source names are Lean keywords. -/
inductive Position where
  | pre
  | suf
deriving DecidableEq, Repr

/-- Wrapping `u64` arithmetic: reduce modulo 2^64.  This is the
release-build overflow semantics of Rust's `u64` operations (debug builds
panic on overflow instead, so in neither profile does the unbounded value
survive). -/
def wrap64 (n : Nat) : Nat := n % 18446744073709551616

/-- Wrapping `i32` arithmetic: reduce into `[-2^31, 2^31)`.  This is the
release-build overflow semantics of Rust's `i32` operations (debug builds
panic on overflow instead). -/
def wrap32 (n : Int) : Int := (n + 2147483648) % 4294967296 - 2147483648

/-- Zero-pads a digit string on the left to width `z`. -/
def zeroPad (z : Nat) (s : String) : String :=
  String.mk (List.replicate (z - s.length) '0') ++ s

/-- Rust's zero-padded integer formatting `{:0z$}` for an `i32` value: the
sign occupies part of the width. -/
def fmtSeq (n : Int) (z : Nat) : String :=
  if n < 0 then "-" ++ zeroPad (z - 1) (toString n.natAbs)
  else zeroPad z (toString n.toNat)

/-- The `Rename` struct (src/lib.rs lines 201-207); the `i32` counter is
modelled as `Int`, with the `i32` wrap-around applied by the increment in
`next` (a Rust `Rename` always holds a value in `[-2^31, 2^31)`). -/
structure Rename where
  name : Option String := none
  position : Position := .pre
  sequence : Int := 0
  zeroes : Nat := 0
deriving DecidableEq, Repr

/-- `Rename::file_stem` (src/lib.rs lines 210-222).  The default stem is the
eagerly evaluated argument of `unwrap_or`, so a path without a file stem is
an error even when the `name` override is present. -/
def Rename.file_stem (r : Rename) (p : RPath) : Except IErr String :=
  match p.fileStem with
  | none => .error (.customError "File stem not found")
  | some stem0 =>
    let name := r.name.getD stem0
    .ok (match r.position with
      | .suf => name ++ "-" ++ fmtSeq r.sequence r.zeroes
      | .pre => fmtSeq r.sequence r.zeroes ++ "-" ++ name)

/-- `Rename::next` (src/lib.rs lines 223-229): computes `file_stem`,
increments the `i32` `sequence` only when it succeeded (`+= 1` wraps to
`i32::MIN` at `i32::MAX` under release semantics; debug builds panic
there), and returns the result. -/
def Rename.next (r : Rename) (p : RPath) : Except IErr String × Rename :=
  match r.file_stem p with
  | .ok s => (.ok s, { r with sequence := wrap32 (r.sequence + 1) })
  | .error e => (.error e, r)

/-- The `Structure` enum (src/lib.rs lines 171-180). -/
inductive Structure where
  | rename (r : Rename)
  | preserve
  | retain
deriving DecidableEq, Repr

/-- `Structure::is_retained`. -/
def Structure.is_retained : Structure → Bool
  | .retain => true
  | _ => false

/-- `Structure::is_renamed`. -/
def Structure.is_renamed : Structure → Bool
  | .rename _ => true
  | _ => false

/-- `Structure::is_preserved`. -/
def Structure.is_preserved : Structure → Bool
  | .preserve => true
  | _ => false

/-- The filesystem/runtime oracles the engine calls, one field per external
effect (§6 of the spec treats these as collaborators):

* `cancel` — the shared `AtomicBool` cancellation flag, read-only during a
  run and modelled as a constant;
* `pathExists` — `Path::exists`, consulted by the collision avoider;
* `sizeOf` — `metadata().len()`; `none` is a metadata error;
* `canon` — `Path::canonicalize`; `none` is an error;
* `copyOk` — whether `fs::copy (src, dst)` succeeds;
* `mkdirOk` — whether `fs::create_dir_all` succeeds;
* `freeAt` — `fs2::free_space`; `none` is an error;
* `sameDiskQ` — the `same_disk` volume comparison (its definition is not
  under src/; only this oracle contract is needed);
* `isFile` — `DirEntry::file_type().is_file()`;
* `walk` — the recursive, name-sorted, depth-bounded `WalkDir` traversal of
  a source root (the `max_depth`/`sort_by_file_name` configuration is part
  of the external walkdir collaborator), already flattened over I/O errors;
* `fuel` — bound on the spec-modelled collision-avoidance loop. -/
structure Env where
  cancel : Bool
  pathExists : RPath → Bool
  sizeOf : RPath → Option Nat
  canon : RPath → Option RPath
  copyOk : RPath → RPath → Bool
  mkdirOk : RPath → Bool
  freeAt : RPath → Option Nat
  sameDiskQ : RPath → RPath → Option Bool
  isFile : RPath → Bool
  walk : RPath → List RPath

/-- The `Ingestor` aggregate (src/lib.rs lines 103-113 plus the async-only
fields).  `renameState` models the local `rename` variable that the
orchestration loop threads by `&mut` (initialised from the `Structure`
payload at the start of every pass); `progress` is the shared atomic
counter.  The cancellation flag lives in `Env`. -/
structure Ingestor where
  structure' : Structure
  target : RPath
  backup : Option RPath
  sources : List RPath
  filter : Filter
  copy_xmp : Bool
  copy_jpg : Bool
  __jpegs : List RPath
  progress : Nat
  renameState : Rename
deriving DecidableEq, Repr

/-- One performed (successful) filesystem action. -/
inductive Act where
  | mkdir (p : RPath)
  | copy (src dst : RPath)
  | xmpCopy (src dst : RPath)
  | jpgCopy (src dst : RPath)
deriving DecidableEq, Repr

/-- Result of an effectful engine operation: the updated `Ingestor` state,
the successful filesystem actions it performed (in order), and its return
value. -/
structure Out (α : Type) where
  st : Ingestor
  trace : List Act
  res : Except IErr α

/-- `accompanying_jpeg` (src/lib.rs lines 457-475): a JPEG input is an
error; otherwise the first of `with_extension("jpg")`,
`with_extension("jpeg")` that canonicalizes is returned. -/
def accompanying_jpeg (canon : RPath → Option RPath) (p : RPath) :
    Except IErr RPath :=
  match (p.extension).map asciiLower with
  | none => .error (.customError "File extension not found")
  | some e =>
    if e = "jpg" ∨ e = "jpeg" then
      .error (.customError "Jpeg file cant have accompanying jpeg")
    else
      match canon (p.withExtension "jpg") with
      | some q => .ok q
      | none =>
        match canon (p.withExtension "jpeg") with
        | some q => .ok q
        | none => .error (.customError "No accompanying jpeg found")

/-- The pending-sidecar toggle used inside `ingest_copy`: remove the path
when present, insert it when absent. -/
def toggleJpeg (l : List RPath) (p : RPath) : List RPath :=
  if l.contains p then l.erase p else p :: l

/-- The `name.ext → name-n.ext` candidate of the collision avoider. -/
def nthCandidate (p : RPath) (n : Nat) : RPath :=
  match p.components.getLast? with
  | none => p
  | some last =>
    let se := stemExtOfName last
    let name := se.1 ++ "-" ++ toString n ++
      (match se.2 with
       | some e => "." ++ e
       | none => "")
    ⟨p.absolute, p.components.dropLast ++ [name]⟩

/-- Search loop of the collision avoider (spec-modelled, see
`exists_plus_one`). -/
def epoGo (ex : RPath → Bool) (p : RPath) : Nat → Nat → Option RPath
  | _, 0 => none
  | n, fuel + 1 =>
    let c := nthCandidate p n
    if ex c then epoGo ex p (n + 1) fuel else some c

/-- Modelled from the spec: `crate::exists_plus_one`, the CollisionAvoider
called by `ingest_copy` in src/ingest/sync.rs and src/ingest/async.rs, is
not defined under src/.  Per §4.5 of the spec: a non-existing path is
returned unchanged, and while the candidate exists an incrementing numeric
suffix is inserted before the extension
(`name.ext → name-1.ext → name-2.ext …`).  The unbounded while-loop is
given explicit `fuel`; `none` models its failure/divergence. -/
def exists_plus_one (ex : RPath → Bool) (fuel : Nat) (p : RPath) :
    Option RPath :=
  if ex p then epoGo ex p 1 fuel else some p

/-- Fuel handed to `exists_plus_one` by the embedded engine. -/
def EPO_FUEL : Nat := 1000

/-- `Ingestor::ingest_copy` of src/ingest/async.rs (lines 361-394): check
the cancellation flag, resolve the output through the collision avoider,
best-effort copy the `.xmp` sidecar, under a `Rename` structure best-effort
toggle-and-copy the accompanying JPEG, bump the progress counter, then
perform the authoritative copy. -/
def ingestCopyA (env : Env) (st : Ingestor) (input output : RPath) :
    Out Nat :=
  if env.cancel then
    ⟨st, [], .error (.customError "Ingesting cancelled")⟩
  else
    match exists_plus_one env.pathExists EPO_FUEL output with
    | none => ⟨st, [], .error (.customError "exists_plus_one failed")⟩
    | some out =>
      let t1 : List Act :=
        if st.copy_xmp then
          if env.copyOk (input.withExtension "xmp") (out.withExtension "xmp")
          then [.xmpCopy (input.withExtension "xmp") (out.withExtension "xmp")]
          else []
        else []
      let pair :=
        if st.structure'.is_renamed && st.copy_jpg then
          match accompanying_jpeg env.canon input with
          | .ok p =>
            ({ st with __jpegs := toggleJpeg st.__jpegs p },
              if env.copyOk p (out.withExtension "jpg")
              then [Act.jpgCopy p (out.withExtension "jpg")] else [])
          | .error _ => (st, [])
        else (st, [])
      let st := { pair.1 with progress := pair.1.progress + 1 }
      if env.copyOk input out then
        ⟨st, t1 ++ pair.2 ++ [.copy input out], .ok ((env.sizeOf input).getD 0)⟩
      else ⟨st, t1 ++ pair.2, .error .ioError⟩

/-- `Ingestor::ingest_copy` of src/ingest/sync.rs (lines 229-254): like the
async version but with no cancellation check and no progress counter, and
the companion-JPEG block is guarded by `!is_retained()` rather than
`is_renamed()`. -/
def ingestCopyS (env : Env) (st : Ingestor) (input output : RPath) :
    Out Nat :=
  match exists_plus_one env.pathExists EPO_FUEL output with
  | none => ⟨st, [], .error (.customError "exists_plus_one failed")⟩
  | some out =>
    let t1 : List Act :=
      if st.copy_xmp then
        if env.copyOk (input.withExtension "xmp") (out.withExtension "xmp")
        then [.xmpCopy (input.withExtension "xmp") (out.withExtension "xmp")]
        else []
      else []
    let pair :=
      if !st.structure'.is_retained && st.copy_jpg then
        match accompanying_jpeg env.canon input with
        | .ok p =>
          ({ st with __jpegs := toggleJpeg st.__jpegs p },
            if env.copyOk p (out.withExtension "jpg")
            then [Act.jpgCopy p (out.withExtension "jpg")] else [])
        | .error _ => (st, [])
      else (st, [])
    if env.copyOk input out then
      ⟨pair.1, t1 ++ pair.2 ++ [.copy input out], .ok ((env.sizeOf input).getD 0)⟩
    else ⟨pair.1, t1 ++ pair.2, .error .ioError⟩

/-- The destination computed by `Ingestor::ingest_file` (src/ingest/async.rs
lines 255-259, identically src/ingest/sync.rs lines 132-136): when the
source root has a parent, the entry's path is stripped of THAT PARENT (the
`if let` shadows `source` with `source.parent()`), and joined onto the
target; when the source root has no parent the root itself is stripped. -/
def ingestFileTarget (target source path : RPath) : Except IErr RPath :=
  match RPath.parent source with
  | some par =>
    match RPath.stripRoot path par with
    | some rel => .ok (target.join rel)
    | none => .error .stripPrefixError
  | none =>
    match RPath.stripRoot path source with
    | some rel => .ok (target.join rel)
    | none => .error .stripPrefixError

/-- `Ingestor::ingest_file` of src/ingest/async.rs (lines 232-269): compute
the destination, then — unless cancelled — create its parent directory
(`unwrap` panics when there is none) and call `ingest_copy`. -/
def ingestFileA (env : Env) (st : Ingestor) (source path : RPath) :
    Out Unit :=
  match ingestFileTarget st.target source path with
  | .error e => ⟨st, [], .error e⟩
  | .ok target =>
    if env.cancel then
      ⟨st, [], .error (.customError "Ingesting cancelled")⟩
    else
      match RPath.parent target with
      | none => ⟨st, [], .error .panicked⟩
      | some par =>
        if env.mkdirOk par then
          let o := ingestCopyA env st path target
          ⟨o.st, .mkdir par :: o.trace, o.res.map (fun _ => ())⟩
        else ⟨st, [], .error .ioError⟩

/-- `Ingestor::ingest_file` of src/ingest/sync.rs (lines 113-141): as the
async version but with no cancellation check, calling the sync
`ingest_copy`. -/
def ingestFileS (env : Env) (st : Ingestor) (source path : RPath) :
    Out Unit :=
  match ingestFileTarget st.target source path with
  | .error e => ⟨st, [], .error e⟩
  | .ok target =>
    match RPath.parent target with
    | none => ⟨st, [], .error .panicked⟩
    | some par =>
      if env.mkdirOk par then
        let o := ingestCopyS env st path target
        ⟨o.st, .mkdir par :: o.trace, o.res.map (fun _ => ())⟩
      else ⟨st, [], .error .ioError⟩

/-- `Ingestor::ingest_file_renamed` of src/ingest/async.rs (lines 272-289):
require the entry's extension, canonicalize the target directory, draw the
next renamed stem (advancing the sequence), and copy to
`"{stem}.{extension}"` under the target. -/
def ingestFileRenamedA (env : Env) (st : Ingestor) (path : RPath) :
    Out Unit :=
  match path.extension with
  | none => ⟨st, [], .error (.customError "File extension not found")⟩
  | some fe =>
    match env.canon st.target with
    | none => ⟨st, [], .error .ioError⟩
    | some ct =>
      match st.renameState.next path with
      | (.error e, r) => ⟨{ st with renameState := r }, [], .error e⟩
      | (.ok stem, r) =>
        let st := { st with renameState := r }
        let o := ingestCopyA env st path (ct.pushName (stem ++ "." ++ fe))
        ⟨o.st, o.trace, o.res.map (fun _ => ())⟩

/-- `Ingestor::ingest_file_renamed` of src/ingest/sync.rs (lines 144-161). -/
def ingestFileRenamedS (env : Env) (st : Ingestor) (path : RPath) :
    Out Unit :=
  match path.extension with
  | none => ⟨st, [], .error (.customError "File extension not found")⟩
  | some fe =>
    match env.canon st.target with
    | none => ⟨st, [], .error .ioError⟩
    | some ct =>
      match st.renameState.next path with
      | (.error e, r) => ⟨{ st with renameState := r }, [], .error e⟩
      | (.ok stem, r) =>
        let st := { st with renameState := r }
        let o := ingestCopyS env st path (ct.pushName (stem ++ "." ++ fe))
        ⟨o.st, o.trace, o.res.map (fun _ => ())⟩

/-- `Ingestor::ingest_file_preserve` of src/ingest/async.rs (lines
291-299): canonicalize the target, join the entry's bare file name, copy. -/
def ingestFilePreserveA (env : Env) (st : Ingestor) (path : RPath) :
    Out Unit :=
  match env.canon st.target with
  | none => ⟨st, [], .error .ioError⟩
  | some ct =>
    match path.fileName with
    | none => ⟨st, [], .error (.customError "File name not found")⟩
    | some n =>
      let o := ingestCopyA env st path (ct.pushName n)
      ⟨o.st, o.trace, o.res.map (fun _ => ())⟩

/-- `Ingestor::files` of src/ingest/async.rs (lines 302-322): the walked
entries for which `matches` returns `Ok(true)` (errors are skipped by
`.ok()?`; unlike the sync version there is no `is_file` test). -/
def filesListA (env : Env) (st : Ingestor) : List RPath :=
  st.sources.flatMap (fun s =>
    (env.walk s).filter (fun p =>
      match matchesAsync st.filter env.sizeOf p with
      | .ok true => true
      | _ => false))

/-- `Ingestor::total_size` of src/ingest/async.rs (lines 80-86): sum of the
files' sizes, a metadata failure counting as 0.  The sum is accumulated in
a `u64`, so it wraps modulo 2^64 (release semantics). -/
def totalSizeA (env : Env) (st : Ingestor) : Nat :=
  wrap64 (((filesListA env st).map (fun p => (env.sizeOf p).getD 0)).sum)

/-- `Ingestor::free_space` of src/ingest/async.rs (lines 64-67):
`create_dir_all` on the directory, then the volume free-space query. -/
def freeSpace (env : Env) (p : RPath) : Except IErr Nat :=
  if env.mkdirOk p then
    match env.freeAt p with
    | some n => .ok n
    | none => .error .ioError
  else .error .ioError

/-- `Ingestor::free_space_backup` of src/ingest/async.rs (lines 70-77). -/
def free_space_backup (env : Env) (st : Ingestor) : Except IErr Nat :=
  match st.backup with
  | some b => freeSpace env b
  | none => .error (.customError "Backup directory not set")

/-- The `same_disk` volume comparison as an `Except`-returning call. -/
def sameDisk (env : Env) (a b : RPath) : Except IErr Bool :=
  match env.sameDiskQ a b with
  | some v => .ok v
  | none => .error .ioError

/-- `Ingestor::fits_with` of src/ingest/async.rs (lines 92-105): with no
backup, `free + size > total`; with a backup on the same disk,
`free + size > total * 2`; with a backup on another disk,
`free + size > total` and `free_backup + size > total`.  All arithmetic is
`u64`, so the sums `free + size`, `free_backup + size` and the product
`total * 2` wrap modulo 2^64 (release semantics; debug builds panic on
overflow). -/
def fits_with (env : Env) (st : Ingestor) (size : Nat) : Except IErr Bool :=
  let total := totalSizeA env st
  match freeSpace env st.target with
  | .error e => .error e
  | .ok free =>
    match st.backup with
    | some bdir =>
      match sameDisk env bdir st.target with
      | .error e => .error e
      | .ok true => .ok (decide (wrap64 (free + size) > wrap64 (total * 2)))
      | .ok false =>
        match free_space_backup env st with
        | .error e => .error e
        | .ok fb =>
          .ok (decide (wrap64 (free + size) > total)
            && decide (wrap64 (fb + size) > total))
    | none => .ok (decide (wrap64 (free + size) > total))

/-- `Ingestor::fits` of src/ingest/async.rs (lines 88-90). -/
def fits (env : Env) (st : Ingestor) : Except IErr Bool :=
  fits_with env st 0

/-- `Ingestor::map_entry` of src/ingest/async.rs (lines 396-422): dispatch
one surviving entry by structure.  Every per-file error is swallowed by
`.ok()`, so the function only transforms the state and emits actions.
Under `Rename`, a JPEG whose path is already pending is removed and skipped
(its RAW mate's `ingest_copy` already copied it); a fresh JPEG is marked
pending and still ingested itself. -/
def mapEntryA (env : Env) (st : Ingestor) (source path : RPath) :
    Ingestor × List Act :=
  match st.structure' with
  | .retain =>
    let o := ingestFileA env st source path
    (o.st, o.trace)
  | .rename _ =>
    if path.isJpeg then
      if st.__jpegs.contains path then
        ({ st with __jpegs := st.__jpegs.erase path }, [])
      else
        let o := ingestFileRenamedA env
          { st with __jpegs := path :: st.__jpegs } path
        (o.st, o.trace)
    else
      let o := ingestFileRenamedA env st path
      (o.st, o.trace)
  | .preserve =>
    let o := ingestFilePreserveA env st path
    (o.st, o.trace)

/-- The `filter_entry` pruning predicate of the async walk (src/ingest/
async.rs lines 144-146): keep the entry when `matches` says so, and also
when `matches` fails (`ok().unwrap_or(true)`).  The subtree pruning of the
external walkdir iterator is modelled as per-entry filtering. -/
def keepEntry (f : Filter) (sizeOf : RPath → Option Nat) (p : RPath) : Bool :=
  match matchesAsync f sizeOf p with
  | .ok b => b
  | .error _ => true

/-- Folds `map_entry` over the surviving entries of one source root. -/
def foldEntriesA (env : Env) (source : RPath) :
    Ingestor → List RPath → Ingestor × List Act
  | st, [] => (st, [])
  | st, p :: ps =>
    let r1 := mapEntryA env st source p
    let r2 := foldEntriesA env source r1.1 ps
    (r2.1, r1.2 ++ r2.2)

/-- The walk of src/ingest/async.rs lines 139-152 (also 199-212): for each
source root, iterate the pruned traversal through `map_entry`.  The filter
is the clone taken before the loop. -/
def foldSourcesA (env : Env) (f : Filter) :
    Ingestor → List RPath → Ingestor × List Act
  | st, [] => (st, [])
  | st, s :: ss =>
    let r1 := foldEntriesA env s st
      ((env.walk s).filter (keepEntry f env.sizeOf))
    let r2 := foldSourcesA env f r1.1 ss
    (r2.1, r1.2 ++ r2.2)

/-- The primary walk of an ingestion pass. -/
def walkPass (env : Env) (st : Ingestor) : Ingestor × List Act :=
  foldSourcesA env st.filter st st.sources

/-- The body of the pending-sidecar drain loop (src/ingest/async.rs lines
157-166, identically src/lib.rs lines 291-300 and src/ingest/sync.rs lines
90-99): for each drained path, force `copy_xmp`/`copy_jpg` off, and ingest
it individually via `ingest_file_renamed` ONLY when the active structure is
`Retain` (the match arm for every other variant does nothing).  The third
component lists the paths for which the individual ingest was attempted. -/
def drainFold (env : Env) :
    Ingestor → List RPath → Ingestor × List Act × List RPath
  | st, [] => (st, [], [])
  | st, j :: js =>
    let st := { st with copy_xmp := false, copy_jpg := false }
    let step :
        Ingestor × List Act × List RPath :=
      match st.structure' with
      | .retain =>
        let o := ingestFileRenamedA env st j
        (o.st, o.trace, [j])
      | _ => (st, [], [])
    let r := drainFold env step.1 js
    (r.1, step.2.1 ++ r.2.1, step.2.2 ++ r.2.2)

/-- The drain phase: `self.__jpegs.drain().collect()` empties the pending
set, then the loop above runs over the residuals. -/
def drainPhase (env : Env) (st : Ingestor) :
    Ingestor × List Act × List RPath :=
  drainFold env { st with __jpegs := [] } st.__jpegs

/-- The per-pass `rename` initialisation (src/ingest/async.rs lines
131-135): the `Rename` payload when the structure is `Rename`, else the
default. -/
def initRen : Structure → Rename
  | .rename r => r
  | _ => {}

/-- `Ingestor::backup` of src/ingest/async.rs (lines 180-229): when a
backup root is configured, retarget to it, clear it (preventing
backup-of-backup), create the directory, check `free_space < total_size`,
re-run the walk and the drain.  Note the flags are NOT restored after this
pass's drain and there is no final cancellation check here. -/
def backupA (env : Env) (st : Ingestor) : Out Unit :=
  match st.backup with
  | none => ⟨st, [], .ok ()⟩
  | some b =>
    let st := { st with target := b, backup := none }
    if env.mkdirOk st.target then
      match freeSpace env st.target with
      | .error e => ⟨st, [], .error e⟩
      | .ok free =>
        if free < totalSizeA env st then
          ⟨st, [], .error .insufficientSpace⟩
        else
          let st := { st with renameState := initRen st.structure' }
          let w := walkPass env st
          let d := drainPhase env w.1
          ⟨d.1, w.2 ++ d.2.1, .ok ()⟩
    else ⟨st, [], .error .ioError⟩

/-- `Ingestor::ingest` of src/ingest/async.rs (lines 126-177): preflight
via `fits`, walk every source, drain the pending sidecars, fail with the
Cancelled error if the flag is set, otherwise restore the copy flags and
run the backup pass. -/
def ingestA (env : Env) (st : Ingestor) : Out Unit :=
  match fits env st with
  | .error e => ⟨st, [], .error e⟩
  | .ok false => ⟨st, [], .error .insufficientSpace⟩
  | .ok true =>
    let st := { st with renameState := initRen st.structure' }
    let w := walkPass env st
    let cx := w.1.copy_xmp
    let cj := w.1.copy_jpg
    let d := drainPhase env w.1
    if env.cancel then
      ⟨d.1, w.2 ++ d.2.1, .error (.customError "Ingesting cancelled")⟩
    else
      let st := { d.1 with copy_xmp := cx, copy_jpg := cj }
      let o := backupA env st
      ⟨o.st, w.2 ++ d.2.1 ++ o.trace, o.res⟩

/-- `Ingestor::files` of src/ingest/sync.rs (lines 174-192): unlike the
async version this keeps only entries whose `file_type().is_file()`. -/
def filesListS (env : Env) (st : Ingestor) : List RPath :=
  st.sources.flatMap (fun s =>
    (env.walk s).filter (fun p =>
      env.isFile p &&
      match matchesSync st.filter env.sizeOf p with
      | .ok true => true
      | _ => false))

/-- `Ingestor::total_size` of src/ingest/sync.rs (lines 38-44); the `u64`
sum wraps modulo 2^64 (release semantics). -/
def totalSizeS (env : Env) (st : Ingestor) : Nat :=
  wrap64 (((filesListS env st).map (fun p => (env.sizeOf p).getD 0)).sum)

/-- The `try_for_each` body of the sync walk (src/ingest/sync.rs lines
58-85): `filter.matches(path)?` PROPAGATES filter errors; matched entries
are dispatched by structure with each per-file copy error swallowed by
`.ok()`; the `Preserve` arm is `todo!()`, modelled as `panicked`. -/
def syncFoldEntries (env : Env) (source : RPath) :
    Ingestor → List RPath → Ingestor × Except IErr Unit
  | st, [] => (st, .ok ())
  | st, p :: ps =>
    match matchesSync st.filter env.sizeOf p with
    | .error e => (st, .error e)
    | .ok false => syncFoldEntries env source st ps
    | .ok true =>
      match st.structure' with
      | .retain =>
        let o := ingestFileS env st source p
        syncFoldEntries env source o.st ps
      | .rename _ =>
        if p.isJpeg then
          if st.__jpegs.contains p then
            syncFoldEntries env source
              { st with __jpegs := st.__jpegs.erase p } ps
          else
            let o := ingestFileRenamedS env
              { st with __jpegs := p :: st.__jpegs } p
            syncFoldEntries env source o.st ps
        else
          let o := ingestFileRenamedS env st p
          syncFoldEntries env source o.st ps
      | .preserve => (st, .error .panicked)

/-- The source loop of the sync walk (src/ingest/sync.rs lines 58-85): a
failing `try_for_each` aborts the whole ingest via `?`. -/
def syncFoldSources (env : Env) :
    Ingestor → List RPath → Ingestor × Except IErr Unit
  | st, [] => (st, .ok ())
  | st, s :: ss =>
    match syncFoldEntries env s st (env.walk s) with
    | (st, .error e) => (st, .error e)
    | (st, .ok _) => syncFoldSources env st ss

/-- The sync drain loop (src/ingest/sync.rs lines 90-99), mirroring
`drainFold` with the sync `ingest_file_renamed`. -/
def syncDrainFold (env : Env) : Ingestor → List RPath → Ingestor
  | st, [] => st
  | st, j :: js =>
    let st := { st with copy_xmp := false, copy_jpg := false }
    let st :=
      match st.structure' with
      | .retain => (ingestFileRenamedS env st j).st
      | _ => st
    syncDrainFold env st js

/-- The sync drain phase: empty `__jpegs`, loop over the residuals. -/
def syncDrain (env : Env) (st : Ingestor) : Ingestor :=
  syncDrainFold env { st with __jpegs := [] } st.__jpegs

/-- One pass of the sync `Ingestor::ingest` up to (but excluding) the
backup recursion (src/ingest/sync.rs lines 47-99): create the target
directory, fail with "Not enough space" when `free_space < total_size`,
initialise the rename state, walk, drain. -/
def syncPassCore (env : Env) (st : Ingestor) : Ingestor × Except IErr Unit :=
  if env.mkdirOk st.target then
    match freeSpace env st.target with
    | .error e => (st, .error e)
    | .ok free =>
      if free < totalSizeS env st then
        (st, .error (.customError "Not enough space"))
      else
        let st := { st with renameState := initRen st.structure' }
        match syncFoldSources env st st.sources with
        | (st, .error e) => (st, .error e)
        | (st, .ok _) => (syncDrain env st, .ok ())
  else (st, .error .ioError)

/-- `Ingestor::ingest` of src/ingest/sync.rs (lines 47-110), identical to
src/lib.rs lines 248-311 except that the latter lacks the collision
avoider: run a pass; if a backup root is configured, restore the copy
flags, retarget to the backup, clear it and recurse (the recursion runs
exactly one further pass, since `backup` is now `None`).  Whatever happened,
the function finishes with `Ok(0)` — the value of the recursive call is
discarded by `self.ingest()?;`. -/
def syncIngest (env : Env) (st : Ingestor) : Ingestor × Except IErr Nat :=
  let entryXmp := st.copy_xmp
  let entryJpg := st.copy_jpg
  match syncPassCore env st with
  | (st1, .error e) => (st1, .error e)
  | (st1, .ok _) =>
    match st1.backup with
    | some b =>
      let st2 := { st1 with copy_xmp := entryXmp, copy_jpg := entryJpg,
                            target := b, backup := none }
      match syncPassCore env st2 with
      | (st3, .error e) => (st3, .error e)
      | (st3, .ok _) => (st3, .ok 0)
    | none => (st1, .ok 0)

/-! ### Concrete fixtures used by witnesses and counterexamples -/

/-- A relative path from components. -/
def rp (cs : List String) : RPath := ⟨false, cs⟩

/-- An everything-succeeds environment: nothing exists yet at the target,
every file is 1 byte, plenty of free space, no cancellation, empty
traversals. -/
def baseEnv : Env where
  cancel := false
  pathExists := fun _ => false
  sizeOf := fun _ => some 1
  canon := fun p => some p
  copyOk := fun _ _ => true
  mkdirOk := fun _ => true
  freeAt := fun _ => some 1000000
  sameDiskQ := fun _ _ => some true
  isFile := fun _ => true
  walk := fun _ => []

/-- A filter accepting any extension and any size up to 10^9. -/
def anyFilter : Filter where
  extensions := []
  min_size := 0
  max_size := 1000000000
  ignore_hidden := true

/-- A plain `Retain` ingestor over source root `s` and target `t`. -/
def baseIng : Ingestor where
  structure' := .retain
  target := rp ["t"]
  backup := none
  sources := [rp ["s"]]
  filter := anyFilter
  copy_xmp := false
  copy_jpg := false
  __jpegs := []
  progress := 0
  renameState := {}

end Ingest

namespace Ingest

/-! ### Claims C7 and C10: the rename-sequence generator -/

/-- Helper: `wrap32` is the identity on values already inside the `i32`
range. -/
theorem wrap32_fixed {n : Int} (h1 : -2147483648 ≤ n)
    (h2 : n < 2147483648) : wrap32 n = n := by
  unfold wrap32
  rw [Int.emod_eq_of_lt (by omega) (by omega)]
  omega

/-- Claim C7 (corrected): for every `Rename` state and path, `next` returns
exactly the string `file_stem` returns, and on failure the state is
returned unchanged with the error propagated; on success the `i32`
`sequence` becomes its 32-bit wrapped successor — equal to `sequence + 1`
for every sequence below `i32::MAX`, but `i32::MIN` at `i32::MAX` itself
(release wrap-around; debug builds panic there), so "increases by exactly
1" fails at that boundary state. -/
theorem claim7_next_theorem : ∀ (r : Rename) (p : RPath),
    (r.next p).1 = r.file_stem p
    ∧ (∀ s, r.file_stem p = .ok s →
        ((r.next p).2).sequence = wrap32 (r.sequence + 1))
    ∧ (∀ s, r.file_stem p = .ok s → -2147483648 ≤ r.sequence →
        r.sequence < 2147483647 →
        ((r.next p).2).sequence = r.sequence + 1)
    ∧ (∀ e, r.file_stem p = .error e → (r.next p).2 = r) := by
  intro r p
  refine ⟨?_, ?_, ?_, ?_⟩
  · cases h : r.file_stem p <;> simp [Rename.next, h]
  · intro s hs
    simp [Rename.next, hs]
  · intro s hs h1 h2
    simp only [Rename.next, hs]
    exact wrap32_fixed (by omega) (by omega)
  · intro e he
    simp [Rename.next, he]

/-- Counterexample for C7: at `sequence = i32::MAX = 2147483647` the call
on `a.txt` succeeds (stem `"2147483647-a"`) yet the new sequence is
`i32::MIN = -2147483648`, which is not the old value increased by 1. -/
theorem claim7_next_cex :
    ((({ sequence := 2147483647 } : Rename).next (rp ["a.txt"])).1
        = .ok "2147483647-a")
    ∧ ((({ sequence := 2147483647 } : Rename).next (rp ["a.txt"])).2).sequence
        = -2147483648
    ∧ (-2147483648 : Int) ≠ 2147483647 + 1 :=
  ⟨rfl, by decide, by decide⟩

/-- Witness for C7: on the default `Rename` state (sequence 0) and the path
`a.txt`, `file_stem` yields `"0-a"` and `next` advances the sequence by
exactly 1. -/
theorem claim7_next_witness :
    ((({} : Rename).next (rp ["a.txt"])).2).sequence
      = ({} : Rename).sequence + 1 :=
  (claim7_next_theorem {} (rp ["a.txt"])).2.2.1 "0-a" rfl (by decide) (by decide)

/-- Claim C10 (confirmed): even with a `name` override present,
`Rename::file_stem` fails on a path without a file stem — the `unwrap_or`
default is evaluated eagerly — and `next` then leaves the state unchanged. -/
theorem claim10_eager_default_theorem : ∀ (r : Rename) (nm : String) (p : RPath),
    r.name = some nm → RPath.fileStem p = none →
    r.file_stem p = .error (.customError "File stem not found")
    ∧ (r.next p).2 = r := by
  intro r nm p _ hs
  refine ⟨?_, ?_⟩
  · simp [Rename.file_stem, hs]
  · simp [Rename.next, Rename.file_stem, hs]

/-- Witness for C10: the override `some "img"` still fails on the empty
path, whose `file_stem` is `None`. -/
theorem claim10_eager_default_witness :
    ({ name := some "img" } : Rename).file_stem (rp [])
        = .error (.customError "File stem not found")
    ∧ (({ name := some "img" } : Rename).next (rp [])).2
        = ({ name := some "img" } : Rename) :=
  claim10_eager_default_theorem { name := some "img" } "img" (rp []) rfl rfl

/-! ### Claim C9: the sync ingest's return value -/

/-- Claim C9 (confirmed): whenever the synchronous `Ingestor::ingest`
returns successfully its value is exactly 0, regardless of how many files
were copied (its doc comment promises the number of ingested files; the
function body ends in `Ok(0)` and discards the recursive backup value). -/
theorem claim9_sync_zero_theorem : ∀ (env : Env) (st : Ingestor) (n : Nat),
    (syncIngest env st).2 = .ok n → n = 0 := by
  intro env st n h
  unfold syncIngest at h
  rcases hc1 : syncPassCore env st with ⟨st1, r1⟩
  rw [hc1] at h
  rcases r1 with e | u
  · simp at h
  · dsimp only at h
    rcases hb : st1.backup with _ | b
    · rw [hb] at h
      simp at h
      omega
    · rw [hb] at h
      dsimp only at h
      rcases hc2 : syncPassCore env
          { st1 with copy_xmp := st.copy_xmp, copy_jpg := st.copy_jpg,
                     target := b, backup := none } with ⟨st3, r3⟩
      rw [hc2] at h
      rcases r3 with e | u
      · simp at h
      · simp at h
        omega

/-- Witness for C9: a trivially succeeding run (empty traversal, ample
space) returns `Ok(0)`. -/
theorem claim9_sync_zero_witness :
    (syncIngest baseEnv baseIng).2 = .ok 0 ∧ (0 : Nat) = 0 :=
  ⟨rfl, claim9_sync_zero_theorem baseEnv baseIng 0 rfl⟩

/-! ### Claim C5: hidden-file handling -/

/-- The filter of the C5 failing input: `ignore_hidden = false`, accepting
`jpg` files up to 1000 bytes. -/
def filterC5 : Filter where
  extensions := ["jpg"]
  min_size := 0
  max_size := 1000
  ignore_hidden := false

/-- Claim C5 (code_bug): on the failing input — `ignore_hidden = false` and
the perfectly visible, matching file `photo.jpg` of size 100 — the
sync/lib.rs implementation (`is_hidden() == ignore_hidden`) rejects the
file, while the async implementation (`ignore_hidden && is_hidden()`),
which the spec designates as authoritative, accepts it exactly as the claim
states. -/
theorem claim5_hidden_theorem :
    matchesSync filterC5 (fun _ => some 100) (rp ["photo.jpg"]) = .ok false
    ∧ matchesAsync filterC5 (fun _ => some 100) (rp ["photo.jpg"]) = .ok true :=
  ⟨rfl, rfl⟩

/-! ### Claim C4: the matching predicate's acceptance condition -/

/-- Rewriting helper: the source's `if cond { return Ok(true) } ... Ok(false)`
pattern returns `Ok` of the condition itself. -/
theorem okBoolIf (c : Bool) :
    (if c = true then (Except.ok true : Except IErr Bool) else .ok false)
      = .ok c := by
  cases c <;> simp

/-- Claim C4 (corrected): for a path that passes the hidden and junk-name
checks, the async `Filter::matches` accepts an extension-bearing file iff
(the lowercased extension is listed, or the list is empty, or it lists "")
and the size is within bounds and the extension is not junk — exactly as
claimed — but accepts an extensionless file iff the extension list is
empty, OR it lists "" and the size is within bounds: when the list is
empty the size bounds are NOT consulted (the source's `&&`/`||`
precedence), contrary to the claim, and a list `{""}` also accepts
extension-bearing files. -/
theorem claim4_matches_theorem :
    ∀ (f : Filter) (sizeOf : RPath → Option Nat) (p : RPath) (size : Nat),
    (f.ignore_hidden && p.isHidden) = false →
    junkStem p = false →
    sizeOf p = some size →
    ((∀ e, (p.extension).map asciiLower = some e →
        matchesAsync f sizeOf p
          = .ok ((f.extensions.contains e || f.extensions.isEmpty
                    || f.extensions.contains "")
                && decide (f.min_size ≤ size) && decide (size ≤ f.max_size)
                && !(TRASH_EXT.contains e)))
     ∧ (p.extension = none →
        matchesAsync f sizeOf p
          = .ok (f.extensions.isEmpty
                || (f.extensions.contains ""
                    && decide (f.min_size ≤ size)
                    && decide (size ≤ f.max_size))))) := by
  intro f sizeOf p size hh hj hs
  constructor
  · intro e he
    rw [← okBoolIf]
    simp only [matchesAsync, hh, hj, hs, he]
    simp
  · intro he
    rw [← okBoolIf]
    simp only [matchesAsync, hh, hj, hs, he, Option.map_none]
    simp

/-- The C4 counterexample filters: `extensions = []` with bounds `[5,10]`,
and `extensions = [""]` with bounds `[0,100]`. -/
def filterC4a : Filter where
  extensions := []
  min_size := 5
  max_size := 10
  ignore_hidden := false

/-- Second counterexample filter for C4. -/
def filterC4b : Filter where
  extensions := [""]
  min_size := 0
  max_size := 100
  ignore_hidden := false

/-- Counterexample for C4: the extensionless file `data` of size 0 is
ACCEPTED by the empty-extensions filter although its size violates the
bounds `[5,10]`; and the extension-bearing file `a.png` of size 50 is
ACCEPTED by the `{""}` filter although the claim says `{""}` matches only
extensionless files. -/
theorem claim4_matches_cex :
    (matchesAsync filterC4a (fun _ => some 0) (rp ["data"]) = .ok true
      ∧ ¬ (5 ≤ 0))
    ∧ (matchesAsync filterC4b (fun _ => some 50) (rp ["a.png"]) = .ok true
      ∧ (rp ["a.png"]).extension ≠ none) :=
  ⟨⟨rfl, by decide⟩, ⟨rfl, by decide⟩⟩

/-- Witness for C4: applying the theorem to the first counterexample input
(the hypotheses hold by computation). -/
theorem claim4_matches_witness :
    matchesAsync filterC4a (fun _ => some 0) (rp ["data"])
      = .ok (filterC4a.extensions.isEmpty
            || (filterC4a.extensions.contains ""
                && decide (filterC4a.min_size ≤ 0)
                && decide (0 ≤ filterC4a.max_size))) :=
  (claim4_matches_theorem filterC4a (fun _ => some 0) (rp ["data"]) 0
    rfl rfl rfl).2 rfl

/-! ### Claim C3: the space preflight -/

/-- Helper: `wrap64` is idempotent, so a `total_size` value is already
reduced modulo 2^64. -/
theorem wrap64_idem (n : Nat) : wrap64 (wrap64 n) = wrap64 n := by
  unfold wrap64
  exact Nat.mod_mod_of_dvd n dvd_rfl

/-- Claim C3 (corrected): `fits_with(extra)` adds `extra` to the FREE side
of each comparison — the wrapping `u64` sum `free + extra` is compared
against `total`, against the wrapping product `total * 2`, and (with
`free_backup + extra`) against `total` — not to the required side as
claimed.  At `extra = 0` and non-overflowing values the two readings
coincide, so `fits()` with no backup and `free == total` is indeed
false. -/
theorem claim3_fits_theorem :
    ∀ (env : Env) (st : Ingestor) (size free : Nat),
    freeSpace env st.target = .ok free →
    ((st.backup = none →
        fits_with env st size
          = .ok (decide (wrap64 (free + size) > totalSizeA env st)))
     ∧ (∀ bdir, st.backup = some bdir →
        sameDisk env bdir st.target = .ok true →
        fits_with env st size
          = .ok (decide (wrap64 (free + size)
                > wrap64 (totalSizeA env st * 2))))
     ∧ (∀ bdir fb, st.backup = some bdir →
        sameDisk env bdir st.target = .ok false →
        freeSpace env bdir = .ok fb →
        fits_with env st size
          = .ok (decide (wrap64 (free + size) > totalSizeA env st)
               && decide (wrap64 (fb + size) > totalSizeA env st)))
     ∧ (st.backup = none → free = totalSizeA env st →
        fits env st = .ok false)) := by
  intro env st size free hf
  refine ⟨?_, ?_, ?_, ?_⟩
  · intro hb
    simp [fits_with, hf, hb]
  · intro bdir hb hsd
    simp [fits_with, hf, hb, hsd]
  · intro bdir fb hb hsd hfb
    simp [fits_with, hf, hb, hsd, free_space_backup, hfb]
  · intro hb hfree
    have hidem : wrap64 (totalSizeA env st) = totalSizeA env st := by
      unfold totalSizeA
      exact wrap64_idem _
    unfold fits
    simp [fits_with, hf, hb, hfree, hidem]

/-- The C3 counterexample environment: a single 10-byte matching file and
10 free bytes at the target. -/
def envC3 : Env :=
  { baseEnv with
    walk := fun _ => [rp ["s", "a.jpg"]]
    sizeOf := fun _ => some 10
    freeAt := fun _ => some 10 }

/-- Counterexample for C3: with `free = total = 10` and `extra = 5` the
code returns `Ok(true)` (`free + extra > total`, i.e. `15 > 10`), while the
claim's condition `free > total + extra` (`10 > 15`) is false. -/
theorem claim3_fits_cex :
    fits_with envC3 baseIng 5 = .ok true ∧ ¬ ((10 : Nat) > 10 + 5) :=
  ⟨rfl, by decide⟩

/-- Witness for C3: the theorem applied to the concrete environment shows
`fits` is false at `free = total`, and that at `extra = u64::MAX` the
wrapped sum `free + extra` (= 9) no longer exceeds `total` (= 10), so
`fits_with` is false there too. -/
theorem claim3_fits_witness :
    fits envC3 baseIng = .ok false
    ∧ fits_with envC3 baseIng 18446744073709551615 = .ok false := by
  refine ⟨(claim3_fits_theorem envC3 baseIng 0 10 rfl).2.2.2 rfl rfl, ?_⟩
  have h := (claim3_fits_theorem envC3 baseIng 18446744073709551615 10 rfl).1 rfl
  rw [h]
  rfl

/-! ### Claim C2: the Retain destination -/

/-- The C2 example target root `out`. -/
def outP : RPath := rp ["out"]

/-- The C2 example source root `src`. -/
def srcP : RPath := rp ["src"]

/-- The C2 example entry `src/x/y/f.cr2`. -/
def entryP : RPath := rp ["src", "x", "y", "f.cr2"]

/-- What `ingest_file` actually produces for the C2 example:
`out/src/x/y/f.cr2`. -/
def fullP : RPath := rp ["out", "src", "x", "y", "f.cr2"]

/-- Claim C2 (corrected): under `Retain` the destination is the target
joined with the entry's path stripped of the PARENT of its source root
(the `if let` in `ingest_file` shadows `source` with `source.parent()`;
the in-source comment documents exactly this), falling back to the source
root itself when it has no parent; so `src`, entry `src/x/y/f.cr2`, target
`out` yield `out/src/x/y/f.cr2`.  Parent directories are created before
the copy (the successful trace starts with the mkdir). -/
theorem claim2_retain_theorem :
    (∀ t s p par q, RPath.parent s = some par →
        RPath.stripRoot p par = some q →
        ingestFileTarget t s p = .ok (t.join q))
    ∧ (∀ t s p q, RPath.parent s = none →
        RPath.stripRoot p s = some q →
        ingestFileTarget t s p = .ok (t.join q))
    ∧ ingestFileTarget outP srcP entryP = .ok fullP
    ∧ (∀ env st s p u, env.cancel = false →
        (ingestFileA env st s p).res = .ok u →
        ∃ d rest, (ingestFileA env st s p).trace = Act.mkdir d :: rest) := by
  refine ⟨?_, ?_, ?_, ?_⟩
  · intro t s p par q hpar hstrip
    simp [ingestFileTarget, hpar, hstrip]
  · intro t s p q hpar hstrip
    simp [ingestFileTarget, hpar, hstrip]
  · rfl
  · intro env st s p u hc
    unfold ingestFileA
    rcases ingestFileTarget st.target s p with e | tgt
    · intro h
      simp at h
    · rw [hc]
      simp only [Bool.false_eq_true, if_false]
      rcases RPath.parent tgt with _ | par
      · intro h
        simp at h
      · dsimp only
        rcases hmk : env.mkdirOk par with _ | _
        · intro h
          simp at h
        · intro _
          exact ⟨par, (ingestCopyA env st p tgt).trace, by simp⟩

/-- Counterexample for C2: on the claim's own end-to-end example the code
computes `out/src/x/y/f.cr2`, not the claimed `out/x/y/f.cr2`. -/
theorem claim2_retain_cex :
    ingestFileTarget outP srcP entryP = .ok fullP
    ∧ fullP ≠ rp ["out", "x", "y", "f.cr2"] :=
  ⟨rfl, by decide⟩

/-- Witness for C2: the general rule applied to the example — the parent of
`src` is the empty path, stripping it leaves the entry intact. -/
theorem claim2_retain_witness :
    ingestFileTarget outP srcP entryP
      = .ok (outP.join (rp ["src", "x", "y", "f.cr2"])) :=
  claim2_retain_theorem.1 outP srcP entryP (rp [])
    (rp ["src", "x", "y", "f.cr2"]) rfl rfl

/-! ### Claim C6: collision avoidance in `ingest_copy` -/

/-- Helper: a successful result of the collision-avoidance loop never
names an existing path. -/
theorem epoGo_not_exists :
    ∀ (fuel n : Nat) (ex : RPath → Bool) (p q : RPath),
    epoGo ex p n fuel = some q → ex q = false := by
  intro fuel
  induction fuel with
  | zero =>
    intro n ex p q h
    simp [epoGo] at h
  | succ f ih =>
    intro n ex p q h
    simp only [epoGo] at h
    by_cases hc : ex (nthCandidate p n) = true
    · rw [if_pos hc] at h
      exact ih (n + 1) ex p q h
    · rw [if_neg hc] at h
      injection h with h
      rw [← h]
      exact Bool.not_eq_true _ |>.mp hc

/-- Helper: any output of `exists_plus_one` is a non-existing path. -/
theorem exists_plus_one_not_exists :
    ∀ (ex : RPath → Bool) (fuel : Nat) (p q : RPath),
    exists_plus_one ex fuel p = some q → ex q = false := by
  intro ex fuel p q h
  unfold exists_plus_one at h
  by_cases he : ex p = true
  · rw [if_pos he] at h
    exact epoGo_not_exists fuel 1 ex p q h
  · rw [if_neg he] at h
    injection h with h
    rw [← h]
    exact Bool.not_eq_true _ |>.mp he

/-- The chain fixture for C6: `d/a.jpg` and `d/a-1.jpg` exist. -/
def exChain : RPath → Bool :=
  fun q => q == rp ["d", "a.jpg"] || q == rp ["d", "a-1.jpg"]

/-- Claim C6 (corrected, spec-modelled `exists_plus_one`): the output of
`ingest_copy` is resolved through collision avoidance — a non-existing
path is unchanged, an existing one walks the `name-1.ext, name-2.ext, …`
chain — and the authoritative (final) copy of the primary file targets the
resolved, non-existing path, so IT never overwrites an existing file.  The
best-effort sidecar copies are not so protected (see the counterexample). -/
theorem claim6_collision_theorem :
    (∀ (ex : RPath → Bool) (fuel : Nat) (p : RPath), ex p = false →
        exists_plus_one ex fuel p = some p)
    ∧ (∀ (ex : RPath → Bool) (fuel : Nat) (p q : RPath),
        exists_plus_one ex fuel p = some q → ex q = false)
    ∧ exists_plus_one exChain 10 (rp ["d", "a.jpg"]) = some (rp ["d", "a-2.jpg"])
    ∧ (∀ (env : Env) (st : Ingestor) (i o : RPath),
        ((ingestCopyS env st i o).res).isOk = true →
        ∃ out, exists_plus_one env.pathExists EPO_FUEL o = some out
          ∧ env.pathExists out = false
          ∧ ((ingestCopyS env st i o).trace).getLast? = some (Act.copy i out)) := by
  refine ⟨?_, exists_plus_one_not_exists, ?_, ?_⟩
  · intro ex fuel p hp
    simp [exists_plus_one, hp]
  · rfl
  · intro env st i o h
    unfold ingestCopyS at h ⊢
    rcases hepo : exists_plus_one env.pathExists EPO_FUEL o with _ | out <;>
      dsimp only
    · rw [hepo] at h
      exact Bool.noConfusion h
    · rw [hepo] at h
      dsimp only at h
      rcases hcp : env.copyOk i out with _ | _
      · rw [hcp] at h
        exact Bool.noConfusion h
      · exact ⟨out, rfl, exists_plus_one_not_exists _ _ _ _ hepo,
          by simp [hcp, List.getLast?_concat]⟩

/-- The C6 counterexample fixture: only `out/a.xmp` exists. -/
def envC6 : Env := { baseEnv with pathExists := fun q => q == rp ["out", "a.xmp"] }

/-- The C6 counterexample ingestor: `Retain` with `copy_xmp` on. -/
def stC6 : Ingestor := { baseIng with copy_xmp := true }

/-- Counterexample for C6: copying `in/x.cr2` to the fresh `out/a.cr2`
performs a successful best-effort `.xmp` copy onto `out/a.xmp`, a
destination file that DOES exist — so "an existing destination file is
never overwritten by any copy", as claimed, is false; only the primary
copy is protected. -/
theorem claim6_collision_cex :
    Act.xmpCopy ((rp ["in", "x.cr2"]).withExtension "xmp") (rp ["out", "a.xmp"])
        ∈ (ingestCopyS envC6 stC6 (rp ["in", "x.cr2"]) (rp ["out", "a.cr2"])).trace
    ∧ envC6.pathExists (rp ["out", "a.xmp"]) = true := by
  refine ⟨?_, rfl⟩
  rw [show (ingestCopyS envC6 stC6 (rp ["in", "x.cr2"]) (rp ["out", "a.cr2"])).trace
      = [Act.xmpCopy ((rp ["in", "x.cr2"]).withExtension "xmp") (rp ["out", "a.xmp"]),
         Act.copy (rp ["in", "x.cr2"]) (rp ["out", "a.cr2"])] from rfl]
  simp

/-- Witness for C6: a never-existing path resolves to itself. -/
theorem claim6_collision_witness :
    exists_plus_one (fun _ => false) 3 (rp ["d", "a.jpg"])
      = some (rp ["d", "a.jpg"]) :=
  claim6_collision_theorem.1 (fun _ => false) 3 (rp ["d", "a.jpg"]) rfl

/-! ### Claim C1: the pending-sidecar drain -/

/-- Helper: with `copy_xmp` off and the structure not `Rename`,
`ingest_copy` (async) leaves the pending set and the structure untouched
and emits at most the authoritative copy action. -/
theorem ingestCopyA_plain (env : Env) (st : Ingestor) (i o : RPath)
    (hx : st.copy_xmp = false) (hs : st.structure'.is_renamed = false) :
    (ingestCopyA env st i o).st.__jpegs = st.__jpegs
    ∧ (ingestCopyA env st i o).st.structure' = st.structure'
    ∧ ∀ a ∈ (ingestCopyA env st i o).trace, ∃ s d, a = Act.copy s d := by
  unfold ingestCopyA
  rcases env.cancel with _ | _
  · dsimp only
    rcases exists_plus_one env.pathExists EPO_FUEL o with _ | out
    · simp
    · dsimp only
      rw [hx, hs]
      rcases env.copyOk i out with _ | _ <;> simp
  · simp

/-- Helper: with `copy_xmp` off and the structure not `Rename`,
`ingest_file_renamed` (async) keeps the pending set and the structure and
emits only plain copy actions. -/
theorem ingestFileRenamedA_plain (env : Env) (st : Ingestor) (j : RPath)
    (hx : st.copy_xmp = false) (hs : st.structure'.is_renamed = false) :
    (ingestFileRenamedA env st j).st.__jpegs = st.__jpegs
    ∧ (ingestFileRenamedA env st j).st.structure' = st.structure'
    ∧ ∀ a ∈ (ingestFileRenamedA env st j).trace, ∃ s d, a = Act.copy s d := by
  unfold ingestFileRenamedA
  rcases j.extension with _ | fe
  · simp
  · dsimp only
    rcases env.canon st.target with _ | ct
    · simp
    · dsimp only
      rcases st.renameState.next j with ⟨e | stem, r⟩
      · simp
      · dsimp only
        exact ingestCopyA_plain env { st with renameState := r } j
          (ct.pushName (stem ++ "." ++ fe)) hx hs

/-- Helper: full characterisation of the drain loop: the pending set and
structure are preserved, an individual ingest is attempted for every
drained path when the structure is `Retain` and for none otherwise, and
the trace holds only plain copy actions. -/
theorem drainFold_spec : ∀ (js : List RPath) (env : Env) (st : Ingestor),
    (drainFold env st js).1.__jpegs = st.__jpegs
    ∧ (drainFold env st js).1.structure' = st.structure'
    ∧ (drainFold env st js).2.2
        = (if st.structure'.is_retained then js else [])
    ∧ ∀ a ∈ (drainFold env st js).2.1, ∃ s d, a = Act.copy s d := by
  intro js
  induction js with
  | nil =>
    intro env st
    simp [drainFold]
  | cons j js ih =>
    intro env st
    unfold drainFold
    dsimp only
    rcases hs : st.structure' with r | _ | _ <;> dsimp only
    · have hrec := ih env
        { st with structure' := Structure.rename r,
                  copy_xmp := false, copy_jpg := false }
      refine ⟨hrec.1, hrec.2.1, ?_, ?_⟩
      · simp [hrec.2.2.1, Structure.is_retained]
      · intro a ha
        simp only [List.nil_append] at ha
        exact hrec.2.2.2 a ha
    · have hrec := ih env
        { st with structure' := Structure.preserve,
                  copy_xmp := false, copy_jpg := false }
      refine ⟨hrec.1, hrec.2.1, ?_, ?_⟩
      · simp [hrec.2.2.1, Structure.is_retained]
      · intro a ha
        simp only [List.nil_append] at ha
        exact hrec.2.2.2 a ha
    · have hfr := ingestFileRenamedA_plain env
        { st with structure' := Structure.retain,
                  copy_xmp := false, copy_jpg := false } j rfl rfl
      have hrec := ih env
        (ingestFileRenamedA env
          { st with structure' := Structure.retain,
                    copy_xmp := false, copy_jpg := false } j).st
      refine ⟨?_, ?_, ?_, ?_⟩
      · rw [hrec.1, hfr.1]
      · rw [hrec.2.1, hfr.2.1]
      · rw [hrec.2.2.1, hfr.2.1]
        simp [Structure.is_retained]
      · intro a ha
        rcases List.mem_append.mp ha with h1 | h2
        · exact hfr.2.2 a h1
        · exact hrec.2.2.2 a h2

/-- Claim C1 (corrected): after the primary walk the pending-sidecar set is
always fully drained, but the residual paths are individually ingested
(with `copy_xmp`/`copy_jpg` forced off — the drain trace contains no
sidecar copy) ONLY when the active structure is `Retain`; under `Rename`
(and `Preserve`) the residuals are discarded without an individual copy,
contrary to the claim's "regardless of which Structure variant". -/
theorem claim1_drain_theorem : ∀ (env : Env) (st : Ingestor),
    (drainPhase env st).1.__jpegs = []
    ∧ (drainPhase env st).2.2
        = (if st.structure'.is_retained then st.__jpegs else [])
    ∧ ∀ a ∈ (drainPhase env st).2.1, ∀ s d,
        a ≠ Act.xmpCopy s d ∧ a ≠ Act.jpgCopy s d := by
  intro env st
  have h := drainFold_spec st.__jpegs env { st with __jpegs := [] }
  refine ⟨h.1, h.2.2.1, ?_⟩
  intro a ha s d
  rcases h.2.2.2 a ha with ⟨s', d', rfl⟩
  exact ⟨Act.noConfusion, Act.noConfusion⟩

/-- The C1 counterexample state: structure `Rename`, one residual pending
JPEG. -/
def stC1 : Ingestor :=
  { baseIng with structure' := .rename {}, __jpegs := [rp ["s", "b.jpg"]] }

/-- Counterexample for C1: with the `Rename` structure active and the
pending set holding the residual `s/b.jpg`, the drain empties the set but
performs NO action and attempts NO individual copy — the residual is not
"individually copied to the target" as claimed. -/
theorem claim1_drain_cex :
    stC1.__jpegs = [rp ["s", "b.jpg"]]
    ∧ (drainPhase baseEnv stC1).2.1 = []
    ∧ (drainPhase baseEnv stC1).2.2 = []
    ∧ (drainPhase baseEnv stC1).1.__jpegs = [] :=
  ⟨rfl, rfl, rfl, rfl⟩

/-- The C1 witness state: structure `Retain`, one residual pending JPEG. -/
def stC1w : Ingestor := { baseIng with __jpegs := [rp ["s", "b.jpg"]] }

/-- The copy the C1 witness drain performs. -/
def tgtC1w : RPath := rp ["t", "0-b.jpg"]

/-- Witness for C1: under `Retain` the drain's only action for the residual
is its plain copy — in particular it is no sidecar copy, the flags being
forced off. -/
theorem claim1_drain_witness :
    Act.copy (rp ["s", "b.jpg"]) tgtC1w ≠ Act.xmpCopy (rp ["s", "b.jpg"]) tgtC1w
    ∧ Act.copy (rp ["s", "b.jpg"]) tgtC1w ≠ Act.jpgCopy (rp ["s", "b.jpg"]) tgtC1w :=
  (claim1_drain_theorem baseEnv stC1w).2.2 (Act.copy (rp ["s", "b.jpg"]) tgtC1w)
    (by rw [show (drainPhase baseEnv stC1w).2.1
          = [Act.copy (rp ["s", "b.jpg"]) tgtC1w] from rfl]
        exact List.mem_singleton.mpr rfl)
    (rp ["s", "b.jpg"]) tgtC1w

/-! ### Claim C8: cancellation -/

/-- Helper: a set cancellation flag makes `ingest_copy` (async) fail with
the Cancelled error at once, performing nothing. -/
theorem ingestCopyA_cancel {env : Env} (st : Ingestor) (i o : RPath)
    (h : env.cancel = true) :
    ingestCopyA env st i o
      = ⟨st, [], .error (.customError "Ingesting cancelled")⟩ := by
  unfold ingestCopyA
  rw [h]
  simp

/-- Helper: under a set cancellation flag `ingest_file_renamed` (async)
performs no filesystem action. -/
theorem ingestFileRenamedA_cancel {env : Env} (st : Ingestor) (j : RPath)
    (h : env.cancel = true) :
    (ingestFileRenamedA env st j).trace = [] := by
  unfold ingestFileRenamedA
  rcases j.extension with _ | fe
  · rfl
  · dsimp only
    rcases env.canon st.target with _ | ct
    · rfl
    · dsimp only
      rcases st.renameState.next j with ⟨e | stem, r⟩
      · rfl
      · simp [ingestCopyA_cancel _ _ _ h]

/-- Helper: under a set cancellation flag `ingest_file_preserve` (async)
performs no filesystem action. -/
theorem ingestFilePreserveA_cancel {env : Env} (st : Ingestor) (p : RPath)
    (h : env.cancel = true) :
    (ingestFilePreserveA env st p).trace = [] := by
  unfold ingestFilePreserveA
  rcases env.canon st.target with _ | ct
  · rfl
  · dsimp only
    rcases p.fileName with _ | n
    · rfl
    · dsimp only
      rw [ingestCopyA_cancel _ _ _ h]

/-- Helper: under a set cancellation flag `ingest_file` (async) performs no
filesystem action. -/
theorem ingestFileA_cancel {env : Env} (st : Ingestor) (s p : RPath)
    (h : env.cancel = true) :
    (ingestFileA env st s p).trace = [] := by
  unfold ingestFileA
  rcases ingestFileTarget st.target s p with e | tgt
  · rfl
  · dsimp only
    rw [h]
    simp

/-- Helper: under a set cancellation flag `map_entry` performs no
filesystem action. -/
theorem mapEntryA_cancel {env : Env} (st : Ingestor) (s p : RPath)
    (h : env.cancel = true) :
    (mapEntryA env st s p).2 = [] := by
  unfold mapEntryA
  rcases st.structure' with r | _ | _ <;> dsimp only
  · rcases p.isJpeg with _ | _
    · simp [ingestFileRenamedA_cancel _ _ h]
    · rcases st.__jpegs.contains p with _ | _
      · simp [ingestFileRenamedA_cancel _ _ h]
      · simp
  · simp [ingestFilePreserveA_cancel _ _ h]
  · simp [ingestFileA_cancel _ _ _ h]

/-- Helper: under a set cancellation flag the whole entry fold performs no
filesystem action. -/
theorem foldEntriesA_cancel {env : Env} (s : RPath)
    (h : env.cancel = true) :
    ∀ (ps : List RPath) (st : Ingestor), (foldEntriesA env s st ps).2 = [] := by
  intro ps
  induction ps with
  | nil => intro st; rfl
  | cons p ps ih =>
    intro st
    unfold foldEntriesA
    dsimp only
    rw [mapEntryA_cancel _ _ _ h, ih]
    rfl

/-- Helper: under a set cancellation flag the whole source fold performs no
filesystem action. -/
theorem foldSourcesA_cancel {env : Env} (f : Filter)
    (h : env.cancel = true) :
    ∀ (ss : List RPath) (st : Ingestor), (foldSourcesA env f st ss).2 = [] := by
  intro ss
  induction ss with
  | nil => intro st; rfl
  | cons s ss ih =>
    intro st
    unfold foldSourcesA
    dsimp only
    rw [foldEntriesA_cancel _ h, ih]
    rfl

/-- Helper: under a set cancellation flag the walk performs no filesystem
action. -/
theorem walkPass_cancel {env : Env} (st : Ingestor)
    (h : env.cancel = true) : (walkPass env st).2 = [] :=
  foldSourcesA_cancel _ h _ _

/-- Helper: under a set cancellation flag the drain performs no filesystem
action. -/
theorem drainFold_cancel {env : Env} (h : env.cancel = true) :
    ∀ (js : List RPath) (st : Ingestor), (drainFold env st js).2.1 = [] := by
  intro js
  induction js with
  | nil => intro st; rfl
  | cons j js ih =>
    intro st
    unfold drainFold
    dsimp only
    rcases st.structure' with r | _ | _ <;> dsimp only
    · simp [ih]
    · simp [ih]
    · simp [ingestFileRenamedA_cancel _ _ h, ih]

/-- Claim C8 (corrected): once the cancellation flag is set, `ingest_copy`
fails with the Cancelled error without copying, the directory-create in
`ingest_file` is likewise guarded (whenever the destination computation
succeeds the function fails Cancelled, and it never performs an action);
and an `ingest` whose space preflight succeeds returns the Cancelled error
having copied nothing — the flag is checked after the (action-free) walk,
and a failing preflight takes precedence over cancellation (see the
counterexample). -/
theorem claim8_cancel_theorem :
    (∀ (env : Env) (st : Ingestor) (i o : RPath), env.cancel = true →
        ingestCopyA env st i o
          = ⟨st, [], .error (.customError "Ingesting cancelled")⟩)
    ∧ (∀ (env : Env) (st : Ingestor) (s p : RPath), env.cancel = true →
        (ingestFileA env st s p).trace = []
        ∧ ∀ tgt, ingestFileTarget st.target s p = .ok tgt →
            (ingestFileA env st s p).res
              = .error (.customError "Ingesting cancelled"))
    ∧ (∀ (env : Env) (st : Ingestor), env.cancel = true →
        fits env st = .ok true →
        (ingestA env st).trace = []
        ∧ (ingestA env st).res = .error (.customError "Ingesting cancelled")) := by
  refine ⟨fun env st i o h => ingestCopyA_cancel st i o h, ?_, ?_⟩
  · intro env st s p h
    constructor
    · exact ingestFileA_cancel _ _ _ h
    · intro tgt htgt
      unfold ingestFileA
      rw [htgt, h]
      simp
  · intro env st hc hf
    unfold ingestA
    rw [hf]
    dsimp only
    rw [hc]
    simp only [if_true]
    refine ⟨?_, ?_⟩
    · rw [walkPass_cancel _ hc]
      unfold drainPhase
      rw [drainFold_cancel hc]
      rfl
    · trivial

/-- The C8 counterexample environment: flag set from the start, but also a
10-byte file and no free space. -/
def envC8 : Env :=
  { baseEnv with
    cancel := true
    walk := fun _ => [rp ["s", "a.jpg"]]
    sizeOf := fun _ => some 10
    freeAt := fun _ => some 0 }

/-- Counterexample for C8: with the flag set before `ingest()` starts but
the preflight failing, `ingest` returns the InsufficientSpace error, not
the Cancelled error the claim promises for every pre-set flag. -/
theorem claim8_cancel_cex :
    (ingestA envC8 baseIng).res = .error .insufficientSpace
    ∧ (ingestA envC8 baseIng).res
        ≠ .error (.customError "Ingesting cancelled") := by
  refine ⟨rfl, ?_⟩
  rw [show (ingestA envC8 baseIng).res = .error .insufficientSpace from rfl]
  simp

/-- The C8 witness environment: flag set, everything else benign (one
matching 1-byte file, ample space). -/
def envC8w : Env :=
  { baseEnv with cancel := true, walk := fun _ => [rp ["s", "a.jpg"]] }

/-- Witness for C8: with the flag set and a succeeding preflight, `ingest`
copies nothing and fails with the Cancelled error; `ingest_copy` fails the
same way. -/
theorem claim8_cancel_witness :
    ((ingestA envC8w baseIng).trace = []
      ∧ (ingestA envC8w baseIng).res
          = .error (.customError "Ingesting cancelled"))
    ∧ ingestCopyA envC8w baseIng (rp ["i"]) (rp ["o"])
        = ⟨baseIng, [], .error (.customError "Ingesting cancelled")⟩ :=
  ⟨claim8_cancel_theorem.2.2 envC8w baseIng rfl rfl,
   claim8_cancel_theorem.1 envC8w baseIng (rp ["i"]) (rp ["o"]) rfl⟩

end Ingest
